import Mathlib

/-!
Shallow embedding of the room actor in `src/index.ts` (a Cloudflare Durable
Object chat room) and proofs about it.

Modelling conventions:
* A WebSocket connection is identified by a `Nat` socket id.
* A JavaScript `Map` is an insertion-ordered association list; `Map.set`
  updates in place when the key exists and appends otherwise, `Map.delete`
  removes the key, `Map.forEach` visits the entries present at call time in
  insertion order, skipping entries deleted before being visited.
* `ws.send` either succeeds or throws; whether it throws is determined by a
  set `dead` of dead socket ids passed to each operation.  Successful sends
  are recorded in a trace of `(socket, message)` pairs, carrying the message
  value before `JSON.stringify` (the serialization is injective and no claim
  depends on the byte-level encoding of outbound frames).
* `new Date().toISOString()` is a `String` argument `now` supplied by the
  clock; ISO-8601 strings of the same calendar era compare chronologically
  in lexicographic string order.
* String lengths are measured in characters; for the ASCII inputs of the
  schema this coincides with JavaScript UTF-16 `.length`.
-/

/-- `ChatMessage` from the source: `userName` plus an optional `message`. -/
structure ChatMessage where
  userName : String
  message : Option String
deriving DecidableEq, Repr

/-- `ChatClientMetadata` from the source: the per-connection identity. -/
structure ChatClientMetadata where
  userName : String
deriving DecidableEq, Repr

/-- JavaScript truthiness of a string: truthy iff nonempty. -/
def jsTruthy (s : String) : Bool := s ≠ ""

/-- JavaScript `Map.get`: the value stored at `k`, if any. -/
def mapGet [DecidableEq κ] (m : List (κ × α)) (k : κ) : Option α :=
  match m with
  | [] => none
  | (k1, v) :: rest => if k1 = k then some v else mapGet rest k

/-- JavaScript `Map.set`: update in place when the key exists, else append. -/
def mapSet [DecidableEq κ] (m : List (κ × α)) (k : κ) (v : α) : List (κ × α) :=
  if (mapGet m k).isSome then
    m.map (fun p => if p.1 = k then (k, v) else p)
  else
    m ++ [(k, v)]

/-- JavaScript `Map.delete`: remove every entry stored at `k`. -/
def mapDelete [DecidableEq κ] (m : List (κ × α)) (k : κ) : List (κ × α) :=
  match m with
  | [] => []
  | (k1, v) :: rest => if k1 = k then mapDelete rest k else (k1, v) :: mapDelete rest k

/-- The regex character class `[0-9a-zA-Z-_ ]` of the userName schema
(the dash after the `A-Z` range is a literal dash). -/
def inNameClass (c : Char) : Bool :=
  c.isDigit || c.isAlpha || c = '-' || c = '_' || c = ' '

/-- JavaScript `RegExp.test` of `/^[a-zA-Z][0-9a-zA-Z-_ ]/` as written in the
source: anchored at the start only, so it demands a first alphabetic
character and a second character from the class, and constrains nothing
beyond the second character (there is no trailing `*$`). -/
def userNameRegexTest (s : String) : Bool :=
  match s.data with
  | c1 :: c2 :: _ => c1.isAlpha && inNameClass c2
  | _ => false

/-- The `userName` field checks of `chatMessageSchema`, in zod declaration
order: `min(1)`, `max(32)`, `regex`.  Returns the first failing check's
message (`errors[0].message`), or `none` on success.  The regex has no
custom message, so zod reports the default `"Invalid"`. -/
def validateUserName (s : String) : Option String :=
  if s.length < 1 then some "Name is too short"
  else if 32 < s.length then some "Name is too long"
  else if userNameRegexTest s then none
  else some "Invalid"

/-- The optional `message` field checks: `min(1)`, `max(255)`. -/
def validateMessageField : Option String → Option String
  | none => none
  | some m =>
    if m.length < 1 then some "Message is too short"
    else if 255 < m.length then some "Message too long"
    else none

/-- `chatMessageSchema.safeParse` on an already-JSON-decoded candidate object
with a string `userName` and an optional string `message` (the JSON-parse
preprocessor and the shape checks of `z.object` are upstream of the field
constraints the claims are about).  Fields are validated in shape order —
`userName` first — and the error carried is `error.errors[0].message`. -/
def chatMessageSafeParse (m : ChatMessage) : Except String ChatMessage :=
  match validateUserName m.userName with
  | some e => Except.error e
  | none =>
    match validateMessageField m.message with
    | some e => Except.error e
    | none => Except.ok m

/-- JSON string escaping for the characters that can occur in this program's
values (backslash and double quote). -/
def jsonEscapeChar (c : Char) : String :=
  if c = '\\' then "\\\\" else if c = '\"' then "\\\"" else String.singleton c

/-- A JSON string literal. -/
def jsonQuote (s : String) : String :=
  "\"" ++ String.join (s.data.map jsonEscapeChar) ++ "\""

/-- `JSON.stringify(parsedMessage.data)`: keys in zod shape order
(`userName` then `message`), the optional `message` omitted when absent.
Braces are written with character escapes. -/
def stringifyChatMessage (m : ChatMessage) : String :=
  match m.message with
  | none => "\x7b\"userName\":" ++ jsonQuote m.userName ++ "\x7d"
  | some msg =>
    "\x7b\"userName\":" ++ jsonQuote m.userName ++ ",\"message\":" ++ jsonQuote msg ++ "\x7d"

/-- `JSON.stringify` of an array of strings (the history backlog). -/
def jsonStringArray (xs : List String) : String :=
  "[" ++ String.intercalate "," (xs.map jsonQuote) ++ "]"

/-- The Session Registry: `this.clients`, mapping socket id to
`ChatClientMetadata | undefined`. -/
abbrev Registry := List (Nat × Option ChatClientMetadata)

/-- The `user_count` system message built by `broadcastClientsCount`. -/
def userCountMessage (n : Nat) : ChatMessage :=
  ⟨"system", some ("user_count:" ++ toString n)⟩

/-- The `forEach` loop of `broadcastClientsCount`: iterate the snapshot of
entries taken at call time; for each socket still registered, send the count
message, and on send failure (`catch`) delete the socket from the registry —
and nothing else.  Returns the final registry and the delivered sends. -/
def bccLoop (dead : List Nat) (msg : ChatMessage) :
    Registry → Registry → Registry × List (Nat × ChatMessage)
  | [], reg => (reg, [])
  | (ws, _) :: rest, reg =>
    if (mapGet reg ws).isSome then
      if ws ∈ dead then
        bccLoop dead msg rest (mapDelete reg ws)
      else
        let r := bccLoop dead msg rest reg
        (r.1, (ws, msg) :: r.2)
    else
      bccLoop dead msg rest reg

/-- `ChatRoom.broadcastClientsCount`: build the count message once from
`this.clients.size`, then fan it out with per-send pruning. -/
def ChatRoom.broadcastClientsCount (dead : List Nat) (reg : Registry) :
    Registry × List (Nat × ChatMessage) :=
  bccLoop dead (userCountMessage reg.length) reg reg

/-- The broadcast `forEach` loop inside `webSocketMessage`: for each socket
of the call-time snapshot still registered, try to send the validated
payload; on failure delete the socket and call `broadcastClientsCount`.
Returns the final registry, the delivered sends in order, and the number of
`broadcastClientsCount` invocations. -/
def fanOutLoop (dead : List Nat) (payload : ChatMessage) :
    Registry → Registry → Registry × List (Nat × ChatMessage) × Nat
  | [], reg => (reg, [], 0)
  | (ws, _) :: rest, reg =>
    if (mapGet reg ws).isSome then
      if ws ∈ dead then
        let reg1 := mapDelete reg ws
        let b := ChatRoom.broadcastClientsCount dead reg1
        let r := fanOutLoop dead payload rest b.1
        (r.1, b.2 ++ r.2.1, r.2.2 + 1)
      else
        let r := fanOutLoop dead payload rest reg
        (r.1, (ws, payload) :: r.2.1, r.2.2)
    else
      fanOutLoop dead payload rest reg

/-- The broadcast pass of `webSocketMessage` over the current registry. -/
def fanOut (dead : List Nat) (payload : ChatMessage) (reg : Registry) :
    Registry × List (Nat × ChatMessage) × Nat :=
  fanOutLoop dead payload reg reg

/-- `storage.put(key, value)` on the History Store partition: an ordered
key-value write that overwrites in place when the key already exists. -/
def storagePut (store : List (String × String)) (k v : String) :
    List (String × String) :=
  mapSet store k v

/-- Modelled from the spec: the History Store is an external collaborator
(`DurableObjectStorage`) offering `list(reverse, limit)`; per the spec,
entries are kept in ascending key order (insertion order = chronological
order) and listing in reverse with a limit yields the most recent entries
first.  Over a store kept in ascending key order this is
`store.reverse.take limit`. -/
def storageListReverse (store : List (String × String)) (limit : Nat) :
    List (String × String) :=
  store.reverse.take limit

/-- The persistence step of `webSocketMessage`:
`storage.put(new Date().toISOString(), JSON.stringify(parsedMessage.data))`. -/
def ChatRoom.persistMessage (store : List (String × String)) (now : String)
    (data : ChatMessage) : List (String × String) :=
  storagePut store now (stringifyChatMessage data)

/-- `ChatRoom.sendHistory`: list the last 100 stored values in reverse key
order, re-reverse into chronological order, wrap as one system message, and
send it to the requesting socket only.  The send is not guarded by any
`try`, so a dead socket makes the call throw (second component `true`)
without any registry effect. -/
def ChatRoom.sendHistory (dead : List Nat) (store : List (String × String))
    (ws : Nat) : List (Nat × ChatMessage) × Bool :=
  let backlog := (storageListReverse store 100).map Prod.snd
  let historyMessage : ChatMessage :=
    ⟨"system", some ("history:" ++ jsonStringArray backlog.reverse)⟩
  if ws ∈ dead then ([], true) else ([(ws, historyMessage)], false)

/-- The mutable state of one `ChatRoom` instance: the Session Registry, the
durable attachments carried by the sockets (written by
`ws.serializeAttachment`), and the History Store partition. -/
structure RoomState where
  clients : Registry
  attachments : List (Nat × String)
  store : List (String × String)
deriving DecidableEq, Repr

/-- The observable outcome of one `webSocketMessage` invocation. -/
structure HandlerOut where
  clients : Registry
  attachments : List (Nat × String)
  store : List (String × String)
  sends : List (Nat × ChatMessage)
  broadcasts : Nat
  threw : Bool
deriving DecidableEq, Repr

/-- `ChatRoom.webSocketMessage`, literally: read `userMetaData` first;
validate; on failure send the error notice to the sender only and return
(the send is unguarded, so a dead sender makes the handler throw with no
state change); on success run the identity block under the source's guard
`if (!parsedMessage.data.userName)`, then, when the validated `message`
field is truthy, broadcast via the fan-out loop and persist under the
current clock value. -/
def ChatRoom.webSocketMessage (dead : List Nat) (st : RoomState) (ws : Nat)
    (message : ChatMessage) (now : String) : HandlerOut :=
  let userMetaData : Option ChatClientMetadata := (mapGet st.clients ws).getD none
  match chatMessageSafeParse message with
  | Except.error e =>
    let errorMessage : ChatMessage := ⟨"system", some ("error:" ++ e)⟩
    if ws ∈ dead then
      ⟨st.clients, st.attachments, st.store, [], 0, true⟩
    else
      ⟨st.clients, st.attachments, st.store, [(ws, errorMessage)], 0, false⟩
  | Except.ok data =>
    let idState : Registry × List (Nat × String) :=
      if !(jsTruthy data.userName) then
        let userName := data.userName
        let metaTruthy : Bool :=
          match userMetaData with
          | some meta => jsTruthy meta.userName
          | none => false
        let attachments1 :=
          if !metaTruthy then mapSet st.attachments ws userName else st.attachments
        (mapSet st.clients ws (some ⟨userName⟩), attachments1)
      else
        (st.clients, st.attachments)
    match data.message with
    | some msgText =>
      if jsTruthy msgText then
        let r := fanOut dead data idState.1
        let store1 := ChatRoom.persistMessage st.store now data
        ⟨r.1, idState.2, store1, r.2.1, r.2.2, false⟩
      else
        ⟨idState.1, idState.2, st.store, [], 0, false⟩
    | none => ⟨idState.1, idState.2, st.store, [], 0, false⟩

/-- `ChatRoom.fetch` on an upgrade request (Join): register the new socket
with identity `undefined`, broadcast the membership count, then send the
history backlog to the new socket only. -/
def ChatRoom.fetch (dead : List Nat) (st : RoomState) (server : Nat) :
    RoomState × List (Nat × ChatMessage) × Bool :=
  let clients1 := mapSet st.clients server none
  let b := ChatRoom.broadcastClientsCount dead clients1
  let h := ChatRoom.sendHistory dead st.store server
  (⟨b.1, st.attachments, st.store⟩, b.2 ++ h.1, h.2)

/-- The `ChatRoom` constructor's registry reconstruction: every socket
returned by `this.ctx.getWebSockets()` is registered with `undefined`
identity.  The `attachments` argument records the durable attachments
available on those sockets (`ws.deserializeAttachment`); the source never
reads them here, so the result does not depend on them. -/
def ChatRoom.constructorClients (openSockets : List Nat)
    (attachments : List (Nat × String)) : Registry :=
  openSockets.map (fun ws => (ws, none))

/-! ### Helper lemmas about the map and loop primitives -/

theorem mapGet_delete_self [DecidableEq κ] (m : List (κ × α)) (k : κ) :
    mapGet (mapDelete m k) k = none := by
  induction m with
  | nil => rfl
  | cons p rest ih =>
    obtain ⟨k1, v⟩ := p
    by_cases h : k1 = k
    · simpa [mapDelete, h] using ih
    · simpa [mapDelete, mapGet, h] using ih

theorem mapGet_delete_ne [DecidableEq κ] (m : List (κ × α)) (k k1 : κ)
    (h : k1 ≠ k) : mapGet (mapDelete m k) k1 = mapGet m k1 := by
  induction m with
  | nil => rfl
  | cons p rest ih =>
    obtain ⟨k2, v⟩ := p
    simp only [mapDelete]
    by_cases h2 : k2 = k
    · rw [if_pos h2]
      subst h2
      have hne : ¬ k2 = k1 := fun e => h e.symm
      simp only [mapGet]
      rw [if_neg hne]
      exact ih
    · rw [if_neg h2]
      simp only [mapGet]
      by_cases h3 : k2 = k1
      · rw [if_pos h3, if_pos h3]
      · rw [if_neg h3, if_neg h3]
        exact ih

theorem mem_keys_of_mapGet_isSome [DecidableEq κ] (m : List (κ × α)) (k : κ)
    (h : (mapGet m k).isSome) : k ∈ m.map Prod.fst := by
  induction m with
  | nil => simp [mapGet] at h
  | cons p rest ih =>
    obtain ⟨k1, v⟩ := p
    by_cases h1 : k1 = k
    · simp [h1]
    · simp only [mapGet, h1, if_false] at h
      simp [ih h]

theorem mapGet_isSome_of_mem [DecidableEq κ] (m : List (κ × α)) (k : κ) (v : α)
    (h : (k, v) ∈ m) : (mapGet m k).isSome := by
  induction m with
  | nil => simp at h
  | cons p rest ih =>
    obtain ⟨k1, v1⟩ := p
    by_cases h1 : k1 = k
    · simp [mapGet, h1]
    · rcases List.mem_cons.mp h with h2 | h2
      · exact absurd (congrArg Prod.fst h2).symm h1
      · simpa [mapGet, h1] using ih h2

theorem mapGet_map_update_ne [DecidableEq κ] (m : List (κ × α)) (k k1 : κ)
    (v : α) (h : k1 ≠ k) :
    mapGet (m.map (fun p => if p.1 = k then (k, v) else p)) k1 = mapGet m k1 := by
  induction m with
  | nil => rfl
  | cons p rest ih =>
    obtain ⟨k2, v2⟩ := p
    simp only [List.map_cons]
    by_cases h2 : k2 = k
    · rw [show (if (k2, v2).1 = k then (k, v) else (k2, v2)) = (k, v) from if_pos h2]
      subst h2
      have hne : ¬ k2 = k1 := fun e => h e.symm
      simp only [mapGet]
      rw [if_neg hne, if_neg hne]
      exact ih
    · rw [show (if (k2, v2).1 = k then (k, v) else (k2, v2)) = (k2, v2) from if_neg h2]
      simp only [mapGet]
      by_cases h3 : k2 = k1
      · rw [if_pos h3, if_pos h3]
      · rw [if_neg h3, if_neg h3]
        exact ih

theorem mapGet_append_single_ne [DecidableEq κ] (m : List (κ × α)) (k k1 : κ)
    (v : α) (h : k1 ≠ k) :
    mapGet (m ++ [(k, v)]) k1 = mapGet m k1 := by
  induction m with
  | nil =>
    have hne : ¬ k = k1 := fun hk => h hk.symm
    simp [mapGet, hne]
  | cons p rest ih =>
    obtain ⟨k2, v2⟩ := p
    by_cases h2 : k2 = k1
    · simp [mapGet, h2]
    · simp [mapGet, h2, ih]

theorem mapGet_mapSet_ne [DecidableEq κ] (m : List (κ × α)) (k k1 : κ)
    (v : α) (h : k1 ≠ k) :
    mapGet (mapSet m k v) k1 = mapGet m k1 := by
  unfold mapSet
  split
  · exact mapGet_map_update_ne m k k1 v h
  · exact mapGet_append_single_ne m k k1 v h

theorem mapSet_of_get_none [DecidableEq κ] (m : List (κ × α)) (k : κ) (v : α)
    (h : mapGet m k = none) : mapSet m k v = m ++ [(k, v)] := by
  unfold mapSet
  simp [h]

theorem bccLoop_sends_msg (dead : List Nat) (msg : ChatMessage) :
    ∀ snap reg p, p ∈ (bccLoop dead msg snap reg).2 → p.2 = msg := by
  intro snap
  induction snap with
  | nil =>
    intro reg p hp
    simp [bccLoop] at hp
  | cons q rest ih =>
    intro reg p hp
    obtain ⟨ws, md⟩ := q
    simp only [bccLoop] at hp
    by_cases h1 : (mapGet reg ws).isSome
    · rw [if_pos h1] at hp
      by_cases h2 : ws ∈ dead
      · rw [if_pos h2] at hp
        exact ih (mapDelete reg ws) p hp
      · rw [if_neg h2] at hp
        rcases List.mem_cons.mp hp with h3 | h3
        · rw [h3]
        · exact ih reg p h3
    · rw [if_neg h1] at hp
      exact ih reg p hp

theorem bccLoop_removes_dead (dead : List Nat) (msg : ChatMessage) (ws : Nat)
    (hws : ws ∈ dead) :
    ∀ snap reg, (mapGet reg ws = none ∨ ws ∈ snap.map Prod.fst) →
      mapGet (bccLoop dead msg snap reg).1 ws = none := by
  intro snap
  induction snap with
  | nil =>
    intro reg hinv
    rcases hinv with h | h
    · simpa [bccLoop] using h
    · simp at h
  | cons q rest ih =>
    intro reg hinv
    obtain ⟨w, md⟩ := q
    simp only [bccLoop]
    by_cases h1 : (mapGet reg w).isSome
    · rw [if_pos h1]
      by_cases h2 : w ∈ dead
      · rw [if_pos h2]
        apply ih
        by_cases h3 : w = ws
        · subst h3
          exact Or.inl (mapGet_delete_self reg w)
        · rcases hinv with h4 | h4
          · exact Or.inl (by rw [mapGet_delete_ne reg w ws (fun e => h3 e.symm)]; exact h4)
          · rcases List.mem_cons.mp (by simpa only [List.map_cons] using h4) with h5 | h5
            · exact absurd h5.symm h3
            · exact Or.inr h5
      · rw [if_neg h2]
        apply ih
        rcases hinv with h4 | h4
        · exact Or.inl h4
        · rcases List.mem_cons.mp (by simpa only [List.map_cons] using h4) with h5 | h5
          · exact absurd (h5 ▸ hws) h2
          · exact Or.inr h5
    · rw [if_neg h1]
      apply ih
      rcases hinv with h4 | h4
      · exact Or.inl h4
      · rcases List.mem_cons.mp (by simpa only [List.map_cons] using h4) with h5 | h5
        · subst h5
          exact Or.inl (Option.not_isSome_iff_eq_none.mp h1)
        · exact Or.inr h5

theorem bcc_removes_dead (dead : List Nat) (reg : Registry) (ws : Nat)
    (hws : ws ∈ dead) :
    mapGet (ChatRoom.broadcastClientsCount dead reg).1 ws = none := by
  apply bccLoop_removes_dead dead (userCountMessage reg.length) ws hws
  by_cases h : (mapGet reg ws).isSome
  · exact Or.inr (mem_keys_of_mapGet_isSome reg ws h)
  · exact Or.inl (Option.not_isSome_iff_eq_none.mp h)

theorem bccLoop_all_live (dead : List Nat) (msg : ChatMessage) :
    ∀ snap reg, (∀ p ∈ snap, p.1 ∉ dead ∧ (mapGet reg p.1).isSome) →
      bccLoop dead msg snap reg = (reg, snap.map (fun p => (p.1, msg))) := by
  intro snap
  induction snap with
  | nil =>
    intro reg hlive
    rfl
  | cons q rest ih =>
    intro reg hlive
    obtain ⟨w, md⟩ := q
    have hq := hlive (w, md) (List.mem_cons_self _ _)
    simp only [bccLoop]
    rw [if_pos hq.2, if_neg hq.1,
      ih reg (fun p hp => hlive p (List.mem_cons_of_mem _ hp))]
    simp

theorem fanOutLoop_all_live (dead : List Nat) (payload : ChatMessage) :
    ∀ snap reg, (∀ p ∈ snap, p.1 ∉ dead ∧ (mapGet reg p.1).isSome) →
      fanOutLoop dead payload snap reg =
        (reg, snap.map (fun p => (p.1, payload)), 0) := by
  intro snap
  induction snap with
  | nil =>
    intro reg hlive
    rfl
  | cons q rest ih =>
    intro reg hlive
    obtain ⟨w, md⟩ := q
    have hq := hlive (w, md) (List.mem_cons_self _ _)
    simp only [fanOutLoop]
    rw [if_pos hq.2, if_neg hq.1,
      ih reg (fun p hp => hlive p (List.mem_cons_of_mem _ hp))]
    simp

theorem fanOutLoop_live_front (dead : List Nat) (payload : ChatMessage) :
    ∀ pre rest reg, (∀ p ∈ pre, p.1 ∉ dead ∧ (mapGet reg p.1).isSome) →
      fanOutLoop dead payload (pre ++ rest) reg =
        ((fanOutLoop dead payload rest reg).1,
         pre.map (fun p => (p.1, payload)) ++ (fanOutLoop dead payload rest reg).2.1,
         (fanOutLoop dead payload rest reg).2.2) := by
  intro pre
  induction pre with
  | nil =>
    intro rest reg hlive
    simp
  | cons q tl ih =>
    intro rest reg hlive
    obtain ⟨w, md⟩ := q
    have hq := hlive (w, md) (List.mem_cons_self _ _)
    show fanOutLoop dead payload ((w, md) :: (tl ++ rest)) reg = _
    simp only [fanOutLoop]
    rw [if_pos hq.2, if_neg hq.1]
    have hih := ih rest reg (fun p hp => hlive p (List.mem_cons_of_mem _ hp))
    simp only [List.append_eq] at hih ⊢
    rw [hih]
    simp

theorem mapDelete_append [DecidableEq κ] (a b : List (κ × α)) (k : κ) :
    mapDelete (a ++ b) k = mapDelete a k ++ mapDelete b k := by
  induction a with
  | nil => rfl
  | cons p rest ih =>
    obtain ⟨k1, v⟩ := p
    by_cases h : k1 = k
    · simp [mapDelete, h, ih]
    · simp [mapDelete, h, ih]

theorem mapDelete_not_mem (a : Registry) (k : Nat)
    (h : k ∉ a.map Prod.fst) : mapDelete a k = a := by
  induction a with
  | nil => rfl
  | cons p rest ih =>
    obtain ⟨k1, v⟩ := p
    have h1 : ¬ k1 = k := by
      intro e
      exact h (by simp [e])
    simp only [mapDelete, if_neg h1]
    rw [ih (fun hm => h (by simp [hm]))]

/-! ### Claim theorems -/

/-- Claim C1 (code bug): the identity block of `webSocketMessage` is guarded
by `if (!parsedMessage.data.userName)`, and a validated `userName` is never
falsy, so the guard never fires: a validated message on a connection with no
stored identity is broadcast (the send trace is nonempty) yet leaves the
registry identity `undefined` and writes no durable attachment — contrary to
the claim that the identity is set and mirrored. -/
theorem validMessageLeavesIdentityUnset :
    (ChatRoom.webSocketMessage [] ⟨[(0, none)], [], []⟩ 0
        ⟨"alice", some "hi"⟩ "2026-01-01T00:00:00.000Z").sends =
      [(0, ⟨"alice", some "hi"⟩)]
    ∧ (ChatRoom.webSocketMessage [] ⟨[(0, none)], [], []⟩ 0
        ⟨"alice", some "hi"⟩ "2026-01-01T00:00:00.000Z").clients = [(0, none)]
    ∧ (ChatRoom.webSocketMessage [] ⟨[(0, none)], [], []⟩ 0
        ⟨"alice", some "hi"⟩ "2026-01-01T00:00:00.000Z").attachments = [] := by
  decide

/-- Claim C2 (code bug): the constructor registers every rediscovered open
socket with `undefined` identity and never reads the durable attachment
back, so a socket carrying the attachment `"alice"` from a prior incarnation
still comes back with an unset identity. -/
theorem constructorIgnoresDurableAttachment :
    ChatRoom.constructorClients [0] [(0, "alice")] = [(0, none)] := rfl

/-- Claim C3 (code bug): the userName regex `/^[a-zA-Z][0-9a-zA-Z-_ ]/` lacks
`*$`, so a one-character letter userName is rejected (the regex demands a
second character) and a disallowed character after the second position is
accepted (nothing past the second character is constrained) — both contrary
to the claimed 1–32-char charset bounds. -/
theorem schemaRegexDiverges :
    chatMessageSafeParse ⟨"a", none⟩ = Except.error "Invalid"
    ∧ chatMessageSafeParse ⟨"ab!", none⟩ = Except.ok ⟨"ab!", none⟩ :=
  ⟨rfl, rfl⟩

/-- Claim C4, counterexample: two persists within the same clock tick reuse
the identical `toISOString` key — not a strictly greater one — and the
second overwrites the first: the store ends with a single entry holding only
the second message. -/
theorem persistSameTickOverwrites :
    ChatRoom.persistMessage
        (ChatRoom.persistMessage [] "2026-01-01T00:00:00.000Z" ⟨"bob", some "m1"⟩)
        "2026-01-01T00:00:00.000Z" ⟨"bob", some "m2"⟩ =
      [("2026-01-01T00:00:00.000Z", stringifyChatMessage ⟨"bob", some "m2"⟩)] := by
  decide

/-- Lexicographic strict order on character lists, by code point; this is the
order in which ISO-8601 timestamp strings of one calendar era sort
chronologically. -/
def lexLt : List Char → List Char → Bool
  | [], [] => false
  | [], _ :: _ => true
  | _ :: _, [] => false
  | a :: as, b :: bs =>
    if a.toNat < b.toNat then true
    else if b.toNat < a.toNat then false
    else lexLt as bs

/-- Strict lexicographic order on strings (the order of storage keys). -/
def strLtb (a b : String) : Bool := lexLt a.data b.data

theorem lexLt_irrefl : ∀ l : List Char, lexLt l l = false := by
  intro l
  induction l with
  | nil => rfl
  | cons c rest ih => simp [lexLt, ih]

theorem strLt_ne (a b : String) (h : strLtb a b = true) : a ≠ b := by
  intro e
  subst e
  rw [strLtb, lexLt_irrefl] at h
  exact Bool.false_ne_true h

/-- The store keys are in strictly ascending (chronological) order. -/
def ascKeys : List (String × String) → Bool
  | [] => true
  | [_] => true
  | a :: b :: rest => strLtb a.1 b.1 && ascKeys (b :: rest)

/-- Claim C4, amended: when the clock strictly advances between two persists
(every existing key precedes the new timestamp, and the first key precedes
the second), the second persist uses the strictly greater key and appends a
fresh entry, overwriting nothing; within one tick the key repeats and the
entry is overwritten. -/
theorem persistStrictClockAppends (store : List (String × String))
    (t1 t2 : String) (m1 m2 : ChatMessage)
    (hall : ∀ k ∈ store.map Prod.fst, strLtb k t2 = true)
    (h12 : strLtb t1 t2 = true) :
    ChatRoom.persistMessage (ChatRoom.persistMessage store t1 m1) t2 m2 =
      ChatRoom.persistMessage store t1 m1 ++ [(t2, stringifyChatMessage m2)] := by
  have hne : t2 ≠ t1 := (strLt_ne t1 t2 h12).symm
  have hstore : mapGet store t2 = none := by
    by_cases h : (mapGet store t2).isSome
    · exact absurd rfl (strLt_ne t2 t2 (hall t2 (mem_keys_of_mapGet_isSome store t2 h)))
    · exact Option.not_isSome_iff_eq_none.mp h
  have hget : mapGet (ChatRoom.persistMessage store t1 m1) t2 = none := by
    unfold ChatRoom.persistMessage storagePut
    rw [mapGet_mapSet_ne store t1 t2 (stringifyChatMessage m1) hne]
    exact hstore
  show storagePut (ChatRoom.persistMessage store t1 m1) t2 (stringifyChatMessage m2) = _
  unfold storagePut
  exact mapSet_of_get_none _ t2 _ hget

/-- Witness for `persistStrictClockAppends` at a concrete store and strictly
advancing millisecond timestamps. -/
theorem persistStrictClockAppendsWitness :
    ChatRoom.persistMessage
        (ChatRoom.persistMessage [("2026-01-01T00:00:00.000Z", "v0")]
          "2026-01-01T00:00:00.001Z" ⟨"bob", some "m1"⟩)
        "2026-01-01T00:00:00.002Z" ⟨"bob", some "m2"⟩ =
      ChatRoom.persistMessage [("2026-01-01T00:00:00.000Z", "v0")]
          "2026-01-01T00:00:00.001Z" ⟨"bob", some "m1"⟩
        ++ [("2026-01-01T00:00:00.002Z", stringifyChatMessage ⟨"bob", some "m2"⟩)] := by
  exact persistStrictClockAppends [("2026-01-01T00:00:00.000Z", "v0")]
    "2026-01-01T00:00:00.001Z" "2026-01-01T00:00:00.002Z"
    ⟨"bob", some "m1"⟩ ⟨"bob", some "m2"⟩ (by decide) (by decide)

/-- Claim C5, counterexample: in a registry of one live and one dead member,
the membership pass removes the dead member within the pass but is not
repeated: the surviving member receives only the pre-removal count
`user_count:2`, and no message carrying the corrected count `user_count:1`
is delivered. -/
theorem bccStaleCountNoRepeat :
    ChatRoom.broadcastClientsCount [1] [(0, none), (1, none)] =
      ([(0, none)], [(0, userCountMessage 2)])
    ∧ userCountMessage 1 ∉
        (ChatRoom.broadcastClientsCount [1] [(0, none), (1, none)]).2.map Prod.snd := by
  decide

/-- Claim C5, amended: a send failure during the membership pass removes the
failed session within the same pass, but the broadcast is not repeated —
every message delivered in the pass carries the membership count sampled at
the start of the pass, so remaining members see the pre-removal count. -/
theorem bccPrunesWithoutRepeat (dead : List Nat) (reg : Registry) (ws : Nat)
    (hws : ws ∈ dead) :
    mapGet (ChatRoom.broadcastClientsCount dead reg).1 ws = none
    ∧ ∀ p ∈ (ChatRoom.broadcastClientsCount dead reg).2,
        p.2 = userCountMessage reg.length := by
  constructor
  · exact bcc_removes_dead dead reg ws hws
  · intro p hp
    exact bccLoop_sends_msg dead (userCountMessage reg.length) reg reg p hp

/-- Witness for `bccPrunesWithoutRepeat`: the dead socket `1` is gone from
the registry after the pass. -/
theorem bccPrunesWithoutRepeatWitness :
    mapGet (ChatRoom.broadcastClientsCount [1] [(0, none), (1, none)]).1 1 = none := by
  exact (bccPrunesWithoutRepeat [1] [(0, none), (1, none)] 1 (by decide)).1

/-- Claim C9, counterexample: a dead sender submits an invalid payload; the
unguarded `ws.send` of the validation-error notice throws, and the sender —
a session whose send just failed — remains registered, contrary to the claim
that no failed send leaves the session registered. -/
theorem failedErrorNoticeLeavesRegistered :
    (ChatRoom.webSocketMessage [0] ⟨[(0, none)], [], []⟩ 0
        ⟨"a", some ""⟩ "2026-01-01T00:00:00.000Z").threw = true
    ∧ (ChatRoom.webSocketMessage [0] ⟨[(0, none)], [], []⟩ 0
        ⟨"a", some ""⟩ "2026-01-01T00:00:00.000Z").clients = [(0, none)] := by
  decide

/-- Claim C6: on a join, after the membership-count broadcast, the joining
socket — and only it — receives exactly one system message wrapping the
up-to-100 most recent stored values, re-reversed into chronological order:
the batch equals the last 100 entries of the (chronologically ascending)
store in store order. -/
theorem fetchReplaysRecentHistory (dead : List Nat) (st : RoomState)
    (server : Nat) (hlive : server ∉ dead)
    (hsorted : ascKeys st.store = true) :
    (ChatRoom.fetch dead st server).2.1 =
      (ChatRoom.broadcastClientsCount dead (mapSet st.clients server none)).2
        ++ [(server, ⟨"system", some ("history:" ++ jsonStringArray
             ((st.store.drop (st.store.length - 100)).map Prod.snd))⟩)]
    ∧ (ChatRoom.fetch dead st server).2.2 = false := by
  have hrev : (st.store.reverse.take 100).reverse =
      st.store.drop (st.store.length - 100) := by
    rw [← List.rtake_eq_reverse_take_reverse]
    rfl
  have hkey : ((storageListReverse st.store 100).map Prod.snd).reverse =
      (st.store.drop (st.store.length - 100)).map Prod.snd := by
    unfold storageListReverse
    rw [← List.map_reverse, hrev]
  constructor
  · simp only [ChatRoom.fetch, ChatRoom.sendHistory, if_neg hlive]
    rw [hkey]
  · simp only [ChatRoom.fetch, ChatRoom.sendHistory, if_neg hlive]

/-- Ascending ISO-like keys "1000" … for the witness store. -/
def mkStoreKey (i : Nat) : String := toString (1000 + i)

/-- A store holding entries `M1 … Mn` in chronological insertion order. -/
def mkStore (n : Nat) : List (String × String) :=
  (List.range n).map (fun i => (mkStoreKey i, "m" ++ toString (i + 1)))

set_option maxRecDepth 40000 in
/-- Witness for `fetchReplaysRecentHistory` at a store of 150 persisted
messages: the replayed batch is exactly `m51 … m150` in chronological
order. -/
theorem fetchReplaysRecentHistoryWitness :
    ((ChatRoom.fetch [] ⟨[], [], mkStore 150⟩ 0).2.1 =
        (ChatRoom.broadcastClientsCount [] (mapSet ([] : Registry) 0 none)).2
          ++ [(0, ⟨"system", some ("history:" ++ jsonStringArray
               (((mkStore 150).drop ((mkStore 150).length - 100)).map Prod.snd))⟩)]
      ∧ (ChatRoom.fetch [] ⟨[], [], mkStore 150⟩ 0).2.2 = false)
    ∧ ((mkStore 150).drop ((mkStore 150).length - 100)).map Prod.snd =
        (List.range 100).map (fun i => "m" ++ toString (i + 51)) := by
  constructor
  · exact fetchReplaysRecentHistory [] ⟨[], [], mkStore 150⟩ 0 (by decide) (by decide)
  · decide

/-- Claim C7: broadcasting a validated chat payload to a registry of live
sessions around one dead session delivers the payload to every live session,
removes the dead session, and triggers exactly one membership-count
broadcast, which carries the corrected (post-removal) count. -/
theorem fanOutIsolatesDeadSession (pre post : Registry) (d : Nat)
    (md : Option ChatClientMetadata) (dead : List Nat) (payload : ChatMessage)
    (hd : d ∈ dead)
    (hlive : ∀ p ∈ pre ++ post, p.1 ∉ dead)
    (hdpre : d ∉ pre.map Prod.fst) (hdpost : d ∉ post.map Prod.fst) :
    fanOut dead payload (pre ++ (d, md) :: post) =
      (pre ++ post,
       pre.map (fun p => (p.1, payload))
         ++ (pre ++ post).map (fun p => (p.1, userCountMessage (pre ++ post).length))
         ++ post.map (fun p => (p.1, payload)),
       1) := by
  have hfull : ∀ p ∈ pre ++ (d, md) :: post,
      (mapGet (pre ++ (d, md) :: post) p.1).isSome := by
    intro p hp
    obtain ⟨k, v⟩ := p
    exact mapGet_isSome_of_mem _ k v hp
  have hds : (mapGet (pre ++ (d, md) :: post) d).isSome :=
    mapGet_isSome_of_mem _ d md (by simp)
  have hdel : mapDelete (pre ++ (d, md) :: post) d = pre ++ post := by
    rw [mapDelete_append, mapDelete_not_mem pre d hdpre]
    have h2 : mapDelete ((d, md) :: post) d = mapDelete post d := by
      simp [mapDelete]
    rw [h2, mapDelete_not_mem post d hdpost]
  have hbcc : ChatRoom.broadcastClientsCount dead (pre ++ post) =
      (pre ++ post,
       (pre ++ post).map (fun p => (p.1, userCountMessage (pre ++ post).length))) := by
    unfold ChatRoom.broadcastClientsCount
    exact bccLoop_all_live dead _ (pre ++ post) (pre ++ post)
      (fun p hp => ⟨hlive p hp, by
        obtain ⟨k, v⟩ := p
        exact mapGet_isSome_of_mem _ k v hp⟩)
  have hrest : fanOutLoop dead payload post (pre ++ post) =
      (pre ++ post, post.map (fun p => (p.1, payload)), 0) :=
    fanOutLoop_all_live dead payload post (pre ++ post)
      (fun p hp => ⟨hlive p (List.mem_append_right _ hp), by
        obtain ⟨k, v⟩ := p
        exact mapGet_isSome_of_mem _ k v (List.mem_append_right _ hp)⟩)
  have hstep : fanOutLoop dead payload ((d, md) :: post) (pre ++ (d, md) :: post) =
      (pre ++ post,
       (pre ++ post).map (fun p => (p.1, userCountMessage (pre ++ post).length))
         ++ post.map (fun p => (p.1, payload)),
       1) := by
    simp only [fanOutLoop]
    rw [if_pos hds, if_pos hd, hdel, hbcc, hrest]
  unfold fanOut
  rw [fanOutLoop_live_front dead payload pre ((d, md) :: post) (pre ++ (d, md) :: post)
      (fun p hp => ⟨hlive p (List.mem_append_left _ hp),
                    hfull p (List.mem_append_left _ hp)⟩)]
  rw [hstep]
  simp [List.append_assoc]

/-- Witness for `fanOutIsolatesDeadSession`: live sockets 0 and 2 around
dead socket 1. -/
theorem fanOutIsolatesDeadSessionWitness :
    fanOut [1] ⟨"bob", some "hi"⟩ [(0, none), (1, none), (2, none)] =
      ([(0, none), (2, none)],
       [(0, ⟨"bob", some "hi"⟩), (0, userCountMessage 2),
        (2, userCountMessage 2), (2, ⟨"bob", some "hi"⟩)],
       1) := by
  have h := fanOutIsolatesDeadSession [(0, none)] [(2, none)] 1 none [1]
    ⟨"bob", some "hi"⟩ (by decide) (by decide) (by decide) (by decide)
  simpa using h

/-- Claim C8: when validation fails and the sender is live, the handler
sends the system-authored notice `error:<field message>` to the sender
only, and changes nothing else: registry, attachments and store are
unchanged, no membership broadcast fires, and nothing is persisted. -/
theorem invalidMessageErrorNoticeOnly (dead : List Nat) (st : RoomState)
    (ws : Nat) (raw : ChatMessage) (now : String) (e : String)
    (hval : chatMessageSafeParse raw = Except.error e) (hlive : ws ∉ dead) :
    ChatRoom.webSocketMessage dead st ws raw now =
      ⟨st.clients, st.attachments, st.store,
       [(ws, ⟨"system", some ("error:" ++ e)⟩)], 0, false⟩ := by
  unfold ChatRoom.webSocketMessage
  rw [hval]
  simp [hlive]

/-- Witness for `invalidMessageErrorNoticeOnly` at the spec's scenario input
(userName `"a"`, empty message): the first reported zod issue is the
userName regex failure `Invalid`. -/
theorem invalidMessageErrorNoticeOnlyWitness :
    ChatRoom.webSocketMessage [] ⟨[(0, none)], [], []⟩ 0 ⟨"a", some ""⟩
        "2026-01-01T00:00:00.000Z" =
      ⟨[(0, none)], [], [], [(0, ⟨"system", some "error:Invalid"⟩)], 0, false⟩ := by
  exact invalidMessageErrorNoticeOnly [] ⟨[(0, none)], [], []⟩ 0 ⟨"a", some ""⟩
    "2026-01-01T00:00:00.000Z" "Invalid" rfl (by decide)

/-- Claim C9, amended: a send failure during the membership-count broadcast
(and likewise the chat fan-out) removes the failed session, but the
validation-error notice send and the history-replay send are not guarded by
any `try`: when they fail the handler throws and the session stays
registered. -/
theorem sendFailureRemovalScope (dead : List Nat) (st : RoomState) (ws : Nat)
    (raw : ChatMessage) (now e : String)
    (hdead : ws ∈ dead) (hval : chatMessageSafeParse raw = Except.error e) :
    mapGet (ChatRoom.broadcastClientsCount dead st.clients).1 ws = none
    ∧ (ChatRoom.webSocketMessage dead st ws raw now).clients = st.clients
    ∧ (ChatRoom.webSocketMessage dead st ws raw now).threw = true
    ∧ (ChatRoom.sendHistory dead st.store ws).2 = true := by
  refine ⟨bcc_removes_dead dead st.clients ws hdead, ?_, ?_, ?_⟩
  · unfold ChatRoom.webSocketMessage
    rw [hval]
    simp [hdead]
  · unfold ChatRoom.webSocketMessage
    rw [hval]
    simp [hdead]
  · unfold ChatRoom.sendHistory
    simp [hdead]

/-- Witness for `sendFailureRemovalScope` at dead socket 0 and an invalid
payload. -/
theorem sendFailureRemovalScopeWitness :
    mapGet (ChatRoom.broadcastClientsCount [0] [(0, none)]).1 0 = none
    ∧ (ChatRoom.webSocketMessage [0] ⟨[(0, none)], [], []⟩ 0 ⟨"a", some ""⟩
        "2026-01-01T00:00:00.000Z").clients = [(0, none)]
    ∧ (ChatRoom.webSocketMessage [0] ⟨[(0, none)], [], []⟩ 0 ⟨"a", some ""⟩
        "2026-01-01T00:00:00.000Z").threw = true
    ∧ (ChatRoom.sendHistory [0] ([] : List (String × String)) 0).2 = true := by
  exact sendFailureRemovalScope [0] ⟨[(0, none)], [], []⟩ 0 ⟨"a", some ""⟩
    "2026-01-01T00:00:00.000Z" "Invalid" (by decide) rfl

/-- Claim C10: the `user_count` message of a membership pass is built once
from the registry size sampled at the start of the pass, so every delivered
send of the pass carries that same count even when dead sessions are pruned
mid-pass — and there are passes whose delivered count exceeds the number of
sessions still registered at the end. -/
theorem userCountUniformPerPass :
    (∀ (dead : List Nat) (reg : Registry) (p : Nat × ChatMessage),
        p ∈ (ChatRoom.broadcastClientsCount dead reg).2 →
          p.2 = userCountMessage reg.length)
    ∧ (∃ (dead : List Nat) (reg : Registry),
        (ChatRoom.broadcastClientsCount dead reg).1.length < reg.length
        ∧ (ChatRoom.broadcastClientsCount dead reg).2 ≠ []
        ∧ ∀ q ∈ (ChatRoom.broadcastClientsCount dead reg).2.map Prod.snd,
            q = userCountMessage reg.length) := by
  constructor
  · intro dead reg p hp
    exact bccLoop_sends_msg dead (userCountMessage reg.length) reg reg p hp
  · exact ⟨[1], [(0, none), (1, none)], by decide, by decide, by decide⟩

/-- Witness for `userCountUniformPerPass`: the send delivered to socket 0 in
a pass over two registered sessions (one dead) carries the start-of-pass
count 2. -/
theorem userCountUniformPerPassWitness :
    ((0 : Nat), userCountMessage 2).2 = userCountMessage 2 := by
  exact userCountUniformPerPass.1 [1] [(0, none), (1, none)]
    (0, userCountMessage 2) (by decide)
